import Mathlib

/-!
Shallow embedding of the gossip static-site generator (gossip.go) for
checking its natural-language specification.

Conventions of the embedding:
* byte sequences are `List Nat`;
* file-system paths are `String`s joined with `"/"` (as `filepath.Join`
  does on clean components);
* Go functions that can fail return an explicit result type; a Go panic
  (out-of-range slice index, `template.Must`) is the distinguished
  `panicked` result;
* OS-level faults (stat/read/create failures) are injected through
  boolean flags on the modelled file-system entries, since the code's
  behaviour branches only on whether the operation failed.
-/

set_option autoImplicit false

namespace Gossip

/-- Source markup kinds, from the `Format` enumeration (gossip.go lines 19-24). -/
inductive Format where
  | MARKDOWN
  | HTML
deriving DecidableEq

/-- The static extension-to-format map `formats` (gossip.go lines 26-30).
A Go map lookup `formats[ext]` is modelled as an `Option`-valued function;
comparison of the keys is exact string equality, as in Go. -/
def formats (ext : String) : Option Format :=
  if ext = "txt" then some Format.MARKDOWN
  else if ext = "md" then some Format.MARKDOWN
  else if ext = "html" then some Format.HTML
  else none

/-- `Format.Convert` (gossip.go lines 34-41).  The external markdown
converter `blackfriday.MarkdownBasic` is an opaque collaborator, so it is
passed in as a parameter `md`; the `switch` has a `MARKDOWN` case and a
`default` case returning the input unchanged (which is what the `HTML`
variant hits). -/
def Format.Convert (md : List Nat → List Nat) (f : Format) (input : List Nat) : List Nat :=
  match f with
  | .MARKDOWN => md input
  | .HTML => input

/-- A date at the granularity the code consumes from `os.FileInfo.ModTime()`:
`Year()` and `Month()` (the month is 1-12 for any valid Go time). -/
structure GoDate where
  year : Nat
  month : Nat
deriving DecidableEq

/-- The `Post` entity (gossip.go lines 180-186); the unused `fileInfo`
field is represented by the `pubdate` already extracted from it. -/
structure Post where
  content : List Nat
  pubdate : GoDate
  destFileName : String
  format : Format
deriving DecidableEq

/-- Index of the last `'.'` in a character list, or `none`;
models `strings.LastIndex(name, ".")` (which returns -1 when absent). -/
def lastDotAux : List Char → Option Nat
  | [] => none
  | c :: rest =>
    match lastDotAux rest with
    | some i => some (i + 1)
    | none => if c = '.' then some 0 else none

/-- Result of post discovery: a post, a returned error message, or a Go
panic. -/
inductive DiscResult where
  | post (p : Post)
  | err (msg : String)
  | panicked
deriving DecidableEq

/-- `NewPostFromPath` (gossip.go lines 188-218), after the `os.Stat` and
`ioutil.ReadFile` steps succeeded (their failures are injected by the
caller's model): the name is split at the last `'.'`.  When the name has
no `'.'`, `strings.LastIndex` yields -1 and the Go slice expression
`fi.Name()[:idx]` panics with an out-of-range index; this is the
`panicked` result.  An unregistered extension returns the error
`"unknown format " + ext`. -/
def NewPostFromPath (name : String) (content : List Nat) (modTime : GoDate) : DiscResult :=
  match lastDotAux name.toList with
  | none => .panicked
  | some idx =>
    let newName := (name.toList.take idx).asString ++ ".html"
    let ext := (name.toList.drop (idx + 1)).asString
    match formats ext with
    | none => .err ("unknown format " ++ ext)
    | some f =>
      .post { content := content, pubdate := modTime, destFileName := newName, format := f }

/-- The character for a single decimal digit. -/
def digitChar (d : Nat) : Char := Char.ofNat (48 + d)

/-- Decimal digits of `n`, most significant first, with fuel (the fuel
`n + 1` used below always suffices since `n / 10 < n` for `n ≥ 10`). -/
def natDecAux : Nat → Nat → List Char
  | 0, _ => []
  | f + 1, n => if n < 10 then [digitChar n] else natDecAux f (n / 10) ++ [digitChar (n % 10)]

/-- Go `fmt.Sprintf("%d", n)` for a non-negative integer: the unpadded
decimal rendering. -/
def sprintfNat (n : Nat) : String := ⟨natDecAux (n + 1) n⟩

/-- Go `fmt.Sprintf("%02d", n)`: decimal rendering left-padded with `'0'`
to width two. -/
def sprintf02d (n : Nat) : String :=
  if n < 10 then "0" ++ sprintfNat n else sprintfNat n

/-- `Post.dateParts` (gossip.go lines 220-224): `("%d" of the year,
"%02d" of the month)`, a pure function of `pubdate`. -/
def Post.dateParts (p : Post) : String × String :=
  (sprintfNat p.pubdate.year, sprintf02d p.pubdate.month)

/-- The destination path built for a post in `generatePosts`
(gossip.go lines 97-101): `filepath.Join(s.Dest, year, month)` and then
`filepath.Join(dir, post.destFileName)`. -/
def postDestPath (dest : String) (p : Post) : String :=
  dest ++ "/" ++ p.dateParts.1 ++ "/" ++ p.dateParts.2 ++ "/" ++ p.destFileName

/-- Does the string start with `"."`?  Models
`strings.HasPrefix(e.Name(), ".")` (gossip.go line 86). -/
def headIsDot (s : String) : Bool :=
  match s.toList with
  | c :: _ => c == '.'
  | [] => false

/-- One directory entry of `source/posts` as `generatePosts` consumes it,
with the fault-injection flags for the filesystem operations performed on
it: `statErr` makes `os.Stat`/`ioutil.ReadFile` inside `NewPostFromPath`
fail, `createErr` makes `os.Create` of the destination file fail, and
`renderErr` makes `tmpl.Execute` inside `Post.Generate` fail. -/
structure PostEntry where
  name : String
  content : List Nat
  modTime : GoDate
  statErr : Bool
  createErr : Bool
  renderErr : Bool
deriving DecidableEq

/-- Outcome of `generatePosts`/`Site.Generate`: normal return, a returned
error (with its message), or a Go panic. -/
inductive GPOutcome where
  | ok
  | errRet (msg : String)
  | panicked
deriving DecidableEq

/-- Modelled message of the `os.Stat`/`ioutil.ReadFile` error propagated
out of `NewPostFromPath`. -/
def ioErrMsg : String := "stat or read error"

/-- Modelled message of an `os.Create` error in the post loop. -/
def createErrMsg : String := "create error"

/-- The error of gossip.go line 78. -/
def missingDirMsg : String := "gossip: posts and templates directories must exist"

/-- Modelled message of an `ioutil.ReadDir` error (gossip.go line 81),
which also occurs when `posts` exists but is not a directory. -/
def readDirMsg : String := "readdir error"

/-- The aggregate error of `copyTree` (gossip.go line 147). -/
def copyAggMsg : String := "error(s) copying source tree"

/-- The post loop of `generatePosts` (gossip.go lines 85-108).  Returns
the outcome together with the list of destination files created (in
order).  Note the faithful rendering of line 107: the error returned by
`post.Generate(f, tmpl)` is discarded, so `renderErr` is never consulted
and the loop continues. -/
def gpLoop (dest : String) : List PostEntry → List String → GPOutcome × List String
  | [], acc => (.ok, acc)
  | e :: rest, acc =>
    if headIsDot e.name then gpLoop dest rest acc
    else if e.statErr then (.errRet ioErrMsg, acc)
    else
      match NewPostFromPath e.name e.content e.modTime with
      | .panicked => (.panicked, acc)
      | .err m => (.errRet m, acc)
      | .post p =>
        if e.createErr then (.errRet createErrMsg, acc)
        else gpLoop dest rest (acc ++ [postDestPath dest p])

/-- The filesystem facts `generatePosts` consults before its loop.
`postsStat`/`tmplStat` are `none` when `os.Stat` reports the path as
missing, and `some isDir` otherwise.  `tmplParseOk` is whether
`template.ParseFiles(templates/default.html)` succeeds; `readDirErr`
injects an `ioutil.ReadDir` failure beyond the not-a-directory case. -/
structure GPEnv where
  postsStat : Option Bool
  tmplStat : Option Bool
  tmplParseOk : Bool
  readDirErr : Bool
  entries : List PostEntry
deriving DecidableEq

/-- `exists` (gossip.go lines 152-155): `os.Stat` succeeded, i.e. the
path exists at all — the result does not depend on it being a directory. -/
def existsB (st : Option Bool) : Bool := st.isSome

/-- `generatePosts` (gossip.go lines 74-110): the `exists` checks, then
`template.Must(template.ParseFiles(...))` — which PANICS on a parse
failure (including when `templates` is a file, making the path invalid) —
then `ioutil.ReadDir` — which fails when `posts` is not a directory —
then the post loop. -/
def generatePosts (dest : String) (env : GPEnv) : GPOutcome × List String :=
  if !existsB env.postsStat || !existsB env.tmplStat then (.errRet missingDirMsg, [])
  else if env.tmplStat = some false || env.tmplParseOk = false then (.panicked, [])
  else if env.postsStat = some false || env.readDirErr then (.errRet readDirMsg, [])
  else gpLoop dest env.entries []

/-- One entry of the source tree for the tree-copy pass.  Fault
injection: `openErr` makes `copyFile` fail on that file (its `os.Open`,
`os.Create`, or `io.Copy` step — `copyTree` only observes that the pair
`copyFile` returned a non-nil error), `readErr` makes reading that
directory's entry list fail during the walk. -/
inductive Entry where
  | file (name : String) (mode : Nat) (content : List Nat) (openErr : Bool)
  | dir (name : String) (mode : Nat) (readErr : Bool) (children : List Entry)

/-- The base name, as `os.FileInfo.Name()` reports it. -/
def Entry.name : Entry → String
  | .file n _ _ _ => n
  | .dir n _ _ _ => n

/-- `os.FileInfo.IsDir()`. -/
def Entry.isDir : Entry → Bool
  | .file _ _ _ _ => false
  | .dir _ _ _ _ => true

/-- The three outcomes a `filepath.WalkFunc` can signal: `nil`,
`filepath.SkipDir`, or a genuine error. -/
inductive FNRet where
  | cont
  | skipDir
  | fail
deriving DecidableEq

/-- A destination entry created by the copy pass, identified by its path
relative to the destination root. -/
structure DestEntry where
  rel : List String
  isDir : Bool
  mode : Nat
  content : List Nat
deriving DecidableEq

/-- The state threaded through the walk closure of `copyTree`:
the destination entries created so far, the `ok` flag of gossip.go
line 116, and the list of files on which `copyFile` was invoked. -/
structure CState where
  created : List DestEntry
  okFlag : Bool
  attempts : List (List String)
deriving DecidableEq

/-- Does a character list start with `'.'`?  Models
`strings.HasPrefix(rel, ".")` (the pattern is the single character `.`). -/
def charsHeadDot (l : List Char) : Bool :=
  match l with
  | c :: _ => c == '.'
  | [] => false

/-- Does a character list contain the two-character substring `"/."`?
Models `strings.Contains(rel, "/.")`. -/
def containsSlashDot : List Char → Bool
  | [] => false
  | c :: rest => (c == '/' && charsHeadDot rest) || containsSlashDot rest

/-- The string `filepath.Rel(s.Source, path)` produces for a path whose
segments below the source root are `segs`: `"."` for the root itself,
otherwise the segments joined with `"/"`. -/
def relString : List String → List Char
  | [] => ['.']
  | [s] => s.toList
  | s :: rest => s.toList ++ '/' :: relString rest

/-- The filter of gossip.go line 132:
`strings.HasPrefix(rel, ".") || strings.Contains(rel, "/.")`. -/
def hiddenFilter (rel : List Char) : Bool :=
  charsHeadDot rel || containsSlashDot rel

/-- The walk closure of `copyTree` (gossip.go lines 117-145), as a
function of the threaded state, the entry's relative path segments, its
base name, whether it is a directory, whether the walk handed it an error
(`err != nil`), and the file data.  Branches in source order: walk error;
skip of `posts`/`templates` directories; the hidden-path filter; `os.Mkdir`
for directories (its error is ignored in the source, so directory creation
is unconditional here); `copyFile` for files. -/
def walkFn (st : CState) (segs : List String) (nm : String) (isD : Bool)
    (hasErr : Bool) (mode : Nat) (content : List Nat) (openErr : Bool) : CState × FNRet :=
  if hasErr then ({ st with okFlag := false }, .fail)
  else if isD && (nm == "posts" || nm == "templates") then (st, .skipDir)
  else if hiddenFilter (relString segs) then (st, .cont)
  else if isD then
    ({ st with created := st.created ++ [⟨segs, true, mode, []⟩] }, .cont)
  else
    let st1 := { st with attempts := st.attempts ++ [segs] }
    if openErr then ({ st1 with okFlag := false }, .fail)
    else ({ st1 with created := st1.created ++ [⟨segs, false, mode, content⟩] }, .cont)

mutual
/-- `filepath.Walk`'s recursive `walk` on one entry (Go standard library
semantics): a file is just handed to the walk function; for a directory,
the walk function is called once (with the directory-read error when
reading its entries failed, in which case our closure returns that error
and the walk stops), and on `nil` the children are visited in order. -/
def walkEntry (st : CState) (segs : List String) : Entry → CState × FNRet
  | .file nm mode content openErr => walkFn st segs nm false false mode content openErr
  | .dir nm mode readErr children =>
    match walkFn st segs nm true readErr mode [] false with
    | (st1, FNRet.cont) => walkList st1 segs children
    | (st1, r) => (st1, r)
/-- The child loop inside `filepath.Walk`'s `walk`: a non-nil error from
a child stops everything and propagates, except that `SkipDir` returned
from (the subtree of) a directory child is swallowed and the loop
continues with the next sibling. -/
def walkList (st : CState) (segs : List String) : List Entry → CState × FNRet
  | [] => (st, .cont)
  | e :: rest =>
    match walkEntry st (segs ++ [e.name]) e with
    | (st1, FNRet.cont) => walkList st1 segs rest
    | (st1, FNRet.skipDir) => if e.isDir then walkList st1 segs rest else (st1, .skipDir)
    | (st1, FNRet.fail) => (st1, .fail)
end

/-- The initial walk state: nothing created, `ok := true`. -/
def initCState : CState := ⟨[], true, []⟩

/-- `Site.copyTree` (gossip.go lines 115-150): run the walk from the
source root (whose relative path is `.`, hence `segs = []`); the value
returned by `filepath.Walk` itself is discarded by the source, and the
aggregate error is returned exactly when the `ok` flag was cleared.  The
second component is `true` iff `copyTree` returns that error. -/
def copyTree (t : Entry) : CState × Bool :=
  let r := walkEntry initCState [] t
  (r.1, !r.1.okFlag)

/-- `Site.Generate` (gossip.go lines 60-72): `copyTree` first,
short-circuiting on its error, then `generatePosts`.  The source tree `t`
and the posts-phase environment `env` are the two aspects of the same
source directory that the two phases consult. -/
def SiteGenerate (dest : String) (t : Entry) (env : GPEnv) : GPOutcome × List String :=
  if (copyTree t).2 then (.errRet copyAggMsg, []) else generatePosts dest env

/-- Clearing the render-failure injection of a post entry; used to state
that `generatePosts` never consults it. -/
def PostEntry.clearRenderErr (e : PostEntry) : PostEntry := { e with renderErr := false }

/-! ## Helper lemmas about the name-splitting of `NewPostFromPath` -/

theorem lastDotAux_eq_none_iff (l : List Char) : lastDotAux l = none ↔ '.' ∉ l := by
  induction l with
  | nil => simp [lastDotAux]
  | cons c rest ih =>
    simp only [lastDotAux, List.mem_cons, not_or]
    cases h : lastDotAux rest with
    | some i =>
      simp only [h] at ih ⊢
      simp only [reduceCtorEq, false_iff, not_and]
      intro _ hrest
      simpa using ih.mpr hrest
    | none =>
      simp only [h] at ih ⊢
      simp only [true_iff] at ih
      split <;> simp_all [eq_comm]

theorem lastDotAux_append_dot (l₁ l₂ : List Char) (h : '.' ∉ l₂) :
    lastDotAux (l₁ ++ '.' :: l₂) = some l₁.length := by
  induction l₁ with
  | nil => simp [lastDotAux, (lastDotAux_eq_none_iff l₂).mpr h]
  | cons c rest ih => simp [lastDotAux, ih]

theorem toList_append_dot (base ext : String) :
    (base ++ "." ++ ext).toList = base.toList ++ '.' :: ext.toList := by
  have h : (base ++ "." ++ ext).toList = (base.toList ++ ['.']) ++ ext.toList := rfl
  simp [h]

theorem drop_after_dot (l₁ l₂ : List Char) :
    (l₁ ++ '.' :: l₂).drop (l₁.length + 1) = l₂ := by
  rw [show l₁ ++ '.' :: l₂ = (l₁ ++ ['.']) ++ l₂ by simp,
    show l₁.length + 1 = (l₁ ++ ['.']).length by simp]
  exact List.drop_left _ _

theorem newPost_unknown_ext (base ext : String) (c : List Nat) (t : GoDate)
    (hdot : '.' ∉ ext.toList) (hfmt : formats ext = none) :
    NewPostFromPath (base ++ "." ++ ext) c t = .err ("unknown format " ++ ext) := by
  unfold NewPostFromPath
  rw [toList_append_dot, lastDotAux_append_dot _ _ hdot]
  simp only [drop_after_dot, List.take_left, String.asString_toList, hfmt]

theorem newPost_destFileName (base ext : String) (c : List Nat) (t : GoDate) (p : Post)
    (hdot : '.' ∉ ext.toList)
    (hp : NewPostFromPath (base ++ "." ++ ext) c t = .post p) :
    p.destFileName = base ++ ".html" := by
  unfold NewPostFromPath at hp
  rw [toList_append_dot, lastDotAux_append_dot _ _ hdot] at hp
  simp only [drop_after_dot, List.take_left, String.asString_toList] at hp
  cases hf : formats ext with
  | none => rw [hf] at hp; cases hp
  | some f =>
    rw [hf] at hp
    cases hp
    rfl

/-! ## Helper lemmas about decimal rendering -/

theorem natDecAux_length (f : Nat) : ∀ n : Nat, n < f →
    (natDecAux f n).length = Nat.log 10 n + 1 := by
  induction f with
  | zero => intro n h; omega
  | succ f ih =>
    intro n h
    by_cases h10 : n < 10
    · have : Nat.log 10 n = 0 := Nat.log_of_lt h10
      simp [natDecAux, h10, this]
    · have hdiv : n / 10 < f := by
        have h1 : n / 10 < n := Nat.div_lt_self (by omega) (by omega)
        omega
      have hlog : Nat.log 10 (n / 10) = Nat.log 10 n - 1 := Nat.log_div_base 10 n
      have hpos : 0 < Nat.log 10 n := Nat.log_pos (by omega) (by omega)
      simp [natDecAux, h10, ih _ hdiv, hlog]
      omega

theorem sprintfNat_length (n : Nat) : (sprintfNat n).length = Nat.log 10 n + 1 := by
  have h : (sprintfNat n).length = (natDecAux (n + 1) n).length := rfl
  rw [h, natDecAux_length (n + 1) n (by omega)]

theorem sprintfNat_length_four_iff (n : Nat) :
    (sprintfNat n).length = 4 ↔ 1000 ≤ n ∧ n ≤ 9999 := by
  rw [sprintfNat_length]
  constructor
  · intro h
    have h3 : Nat.log 10 n = 3 := by omega
    have := (Nat.log_eq_iff (b := 10) (m := 3) (n := n) (Or.inl (by omega))).mp h3
    constructor <;> [exact this.1; omega]
  · intro ⟨h1, h2⟩
    have : Nat.log 10 n = 3 :=
      (Nat.log_eq_iff (b := 10) (m := 3) (n := n) (Or.inl (by omega))).mpr ⟨by omega, by omega⟩
    omega

theorem sprintf02d_length_two (n : Nat) (h1 : 1 ≤ n) (h2 : n ≤ 12) :
    (sprintf02d n).length = 2 := by
  unfold sprintf02d
  by_cases h : n < 10
  · rw [if_pos h, String.length_append, sprintfNat_length, Nat.log_of_lt h]
    rfl
  · rw [if_neg h, sprintfNat_length]
    have : Nat.log 10 n = 1 :=
      (Nat.log_eq_iff (b := 10) (m := 1) (n := n) (Or.inl (by omega))).mpr ⟨by omega, by omega⟩
    omega

/-! ## Helper lemmas about the copy walk -/

theorem walkFn_okFlag (st : CState) (segs : List String) (nm : String) (isD : Bool)
    (hasErr : Bool) (mode : Nat) (content : List Nat) (openErr : Bool) :
    ((walkFn st segs nm isD hasErr mode content openErr).2 = FNRet.fail →
      (walkFn st segs nm isD hasErr mode content openErr).1.okFlag = false)
  ∧ ((walkFn st segs nm isD hasErr mode content openErr).2 ≠ FNRet.fail →
      (walkFn st segs nm isD hasErr mode content openErr).1.okFlag = st.okFlag) := by
  unfold walkFn
  split_ifs <;> simp_all

mutual
theorem walkEntry_okFlag (st : CState) (segs : List String) (e : Entry) :
    ((walkEntry st segs e).2 = FNRet.fail → (walkEntry st segs e).1.okFlag = false)
  ∧ ((walkEntry st segs e).2 ≠ FNRet.fail → (walkEntry st segs e).1.okFlag = st.okFlag) := by
  cases e with
  | file nm mode content openErr => exact walkFn_okFlag st segs nm false false mode content openErr
  | dir nm mode readErr children =>
    have hfn := walkFn_okFlag st segs nm true readErr mode [] false
    rcases hw : walkFn st segs nm true readErr mode [] false with ⟨st1, r⟩
    rw [hw] at hfn
    cases r with
    | cont =>
      have hrec := walkList_okFlag st1 segs children
      have h1 : st1.okFlag = st.okFlag := hfn.2 (by simp)
      simp only [walkEntry, hw]
      exact ⟨fun h => hrec.1 h, fun h => (hrec.2 h).trans h1⟩
    | skipDir =>
      simp only [walkEntry, hw]
      exact ⟨(fun h => by cases h), (fun _ => hfn.2 (by simp))⟩
    | fail =>
      simp only [walkEntry, hw]
      exact ⟨fun _ => hfn.1 rfl, fun h => absurd rfl h⟩
theorem walkList_okFlag (st : CState) (segs : List String) (l : List Entry) :
    ((walkList st segs l).2 = FNRet.fail → (walkList st segs l).1.okFlag = false)
  ∧ ((walkList st segs l).2 ≠ FNRet.fail → (walkList st segs l).1.okFlag = st.okFlag) := by
  cases l with
  | nil => exact ⟨(fun h => by cases h), (fun _ => rfl)⟩
  | cons e rest =>
    have hent := walkEntry_okFlag st (segs ++ [e.name]) e
    rcases hw : walkEntry st (segs ++ [e.name]) e with ⟨st1, r⟩
    rw [hw] at hent
    cases r with
    | cont =>
      have hrec := walkList_okFlag st1 segs rest
      have h1 : st1.okFlag = st.okFlag := hent.2 (by simp)
      simp only [walkList, hw]
      exact ⟨fun h => hrec.1 h, fun h => (hrec.2 h).trans h1⟩
    | skipDir =>
      have h1 : st1.okFlag = st.okFlag := hent.2 (by simp)
      simp only [walkList, hw]
      by_cases hd : e.isDir
      · rw [if_pos hd]
        have hrec := walkList_okFlag st1 segs rest
        exact ⟨fun h => hrec.1 h, fun h => (hrec.2 h).trans h1⟩
      · rw [if_neg hd]
        exact ⟨(fun h => by cases h), (fun _ => h1)⟩
    | fail =>
      simp only [walkList, hw]
      exact ⟨fun _ => hent.1 rfl, fun h => absurd rfl h⟩
end

theorem containsSlashDot_append (l m : List Char) (h : hiddenFilter m = true) :
    containsSlashDot (l ++ '/' :: m) = true := by
  induction l with
  | nil =>
    simp only [List.nil_append, containsSlashDot]
    simp only [hiddenFilter, Bool.or_eq_true] at h
    rcases h with h | h <;> simp [h]
  | cons c rest ih =>
    simp only [List.cons_append, containsSlashDot, List.append_eq, ih, Bool.or_true]

theorem hiddenFilter_of_mem_dot (segs : List String) (s : String) (hs : s ∈ segs)
    (hdot : charsHeadDot s.toList = true) : hiddenFilter (relString segs) = true := by
  induction segs with
  | nil => cases hs
  | cons x rest ih =>
    cases rest with
    | nil =>
      rcases List.mem_singleton.mp hs with rfl
      simp only [String.toList] at hdot
      simp [relString, hiddenFilter, hdot]
    | cons y ys =>
      rcases List.mem_cons.mp hs with rfl | hmem
      · rcases hx : s.toList with _ | ⟨c, t⟩
        · rw [hx] at hdot; cases hdot
        · rw [hx] at hdot
          simp only [charsHeadDot] at hdot
          simp only [relString, hiddenFilter, hx, List.cons_append, charsHeadDot, hdot,
            Bool.true_or]
      · have h := ih hmem
        simp only [relString, hiddenFilter, Bool.or_eq_true]
        right
        exact containsSlashDot_append _ _ h

theorem walkFn_created (st : CState) (segs : List String) (nm : String) (isD : Bool)
    (hasErr : Bool) (mode : Nat) (content : List Nat) (openErr : Bool)
    (hanc : ∀ s ∈ segs.dropLast, s ≠ "posts" ∧ s ≠ "templates") :
    ∀ x ∈ (walkFn st segs nm isD hasErr mode content openErr).1.created,
      x ∈ st.created ∨
        ((∀ s ∈ x.rel, charsHeadDot s.toList = false) ∧
         (∀ s ∈ x.rel.dropLast, s ≠ "posts" ∧ s ≠ "templates")) := by
  intro x hx
  unfold walkFn at hx
  split_ifs at hx with h1 h2 h3 h4 h5
  · exact Or.inl hx
  · exact Or.inl hx
  · exact Or.inl hx
  · rcases List.mem_append.mp hx with h | h
    · exact Or.inl h
    · rcases List.mem_singleton.mp h with rfl
      refine Or.inr ⟨?_, hanc⟩
      intro s hs
      by_contra hc
      rw [Bool.not_eq_false] at hc
      rw [hiddenFilter_of_mem_dot segs s hs hc] at h3
      exact h3 rfl
  · exact Or.inl hx
  · rcases List.mem_append.mp hx with h | h
    · exact Or.inl h
    · rcases List.mem_singleton.mp h with rfl
      refine Or.inr ⟨?_, hanc⟩
      intro s hs
      by_contra hc
      rw [Bool.not_eq_false] at hc
      rw [hiddenFilter_of_mem_dot segs s hs hc] at h3
      exact h3 rfl

theorem walkFn_dir_cont_name (st : CState) (segs : List String) (nm : String)
    (hasErr : Bool) (mode : Nat) (content : List Nat) (openErr : Bool)
    (h : (walkFn st segs nm true hasErr mode content openErr).2 = FNRet.cont) :
    nm ≠ "posts" ∧ nm ≠ "templates" := by
  unfold walkFn at h
  split_ifs at h with h1 h2 h3 h4 h5 <;> simp_all

mutual
theorem walkEntry_created (st : CState) (segs : List String) (e : Entry)
    (hanc : ∀ s ∈ segs.dropLast, s ≠ "posts" ∧ s ≠ "templates")
    (hlast : segs = [] ∨ segs.getLast? = some e.name) :
    ∀ x ∈ (walkEntry st segs e).1.created,
      x ∈ st.created ∨
        ((∀ s ∈ x.rel, charsHeadDot s.toList = false) ∧
         (∀ s ∈ x.rel.dropLast, s ≠ "posts" ∧ s ≠ "templates")) := by
  cases e with
  | file nm mode content openErr =>
    exact walkFn_created st segs nm false false mode content openErr hanc
  | dir nm mode readErr children =>
    intro x hx
    have hfn := walkFn_created st segs nm true readErr mode [] false hanc
    rcases hw : walkFn st segs nm true readErr mode [] false with ⟨st1, r⟩
    rw [hw] at hfn
    cases r with
    | cont =>
      simp only [walkEntry, hw] at hx
      have hnm : nm ≠ "posts" ∧ nm ≠ "templates" :=
        walkFn_dir_cont_name st segs nm readErr mode [] false (by rw [hw])
      have hall : ∀ s ∈ segs, s ≠ "posts" ∧ s ≠ "templates" := by
        intro s hs
        rcases hlast with h0 | h0
        · subst h0; cases hs
        · have hne : segs ≠ [] := by
            intro h; rw [h] at h0; cases h0
          have : segs.dropLast ++ [segs.getLast hne] = segs := List.dropLast_append_getLast hne
          rw [← this] at hs
          rcases List.mem_append.mp hs with h | h
          · exact hanc s h
          · rcases List.mem_singleton.mp h with rfl
            have : segs.getLast hne = nm := by
              have := List.getLast?_eq_getLast segs hne
              rw [this] at h0
              cases h0
              · rfl
            rw [this]
            exact ⟨hnm.1, hnm.2⟩
      rcases walkList_created st1 segs children hall x hx with h | h
      · exact hfn x h
      · exact Or.inr h
    | skipDir =>
      simp only [walkEntry, hw] at hx
      exact hfn x hx
    | fail =>
      simp only [walkEntry, hw] at hx
      exact hfn x hx
theorem walkList_created (st : CState) (segs : List String) (l : List Entry)
    (hall : ∀ s ∈ segs, s ≠ "posts" ∧ s ≠ "templates") :
    ∀ x ∈ (walkList st segs l).1.created,
      x ∈ st.created ∨
        ((∀ s ∈ x.rel, charsHeadDot s.toList = false) ∧
         (∀ s ∈ x.rel.dropLast, s ≠ "posts" ∧ s ≠ "templates")) := by
  cases l with
  | nil => intro x hx; exact Or.inl hx
  | cons e rest =>
    intro x hx
    have hanc : ∀ s ∈ (segs ++ [e.name]).dropLast, s ≠ "posts" ∧ s ≠ "templates" := by
      rw [List.dropLast_concat]
      exact hall
    have hlast : segs ++ [e.name] = [] ∨ (segs ++ [e.name]).getLast? = some e.name :=
      Or.inr (List.getLast?_concat segs)
    have hent := walkEntry_created st (segs ++ [e.name]) e hanc hlast
    rcases hw : walkEntry st (segs ++ [e.name]) e with ⟨st1, r⟩
    rw [hw] at hent
    cases r with
    | cont =>
      simp only [walkList, hw] at hx
      rcases walkList_created st1 segs rest hall x hx with h | h
      · exact hent x h
      · exact Or.inr h
    | skipDir =>
      simp only [walkList, hw] at hx
      by_cases hd : e.isDir
      · rw [if_pos hd] at hx
        rcases walkList_created st1 segs rest hall x hx with h | h
        · exact hent x h
        · exact Or.inr h
      · rw [if_neg hd] at hx
        exact hent x hx
    | fail =>
      simp only [walkList, hw] at hx
      exact hent x hx
end

/-! ## Claim C1 -/

/-- Counterexample to claim C1 as stated: with two well-formed posts of
which the first fails template execution (`renderErr = true`), generation
completes normally (`ok`), writes both destination files, and returns no
error to the caller — the result of `post.Generate(f, tmpl)` is discarded
at gossip.go line 107, so the run is not aborted. -/
theorem C1_counterexample :
    SiteGenerate "_site" (.dir "src" 493 false [])
      { postsStat := some true, tmplStat := some true, tmplParseOk := true, readDirErr := false,
        entries := [⟨"a.md", [], ⟨2023, 7⟩, false, false, true⟩,
                    ⟨"b.md", [], ⟨2023, 7⟩, false, false, false⟩] }
    = (.ok, ["_site/2023/07/a.html", "_site/2023/07/b.html"]) := by decide

/-- Claim C1 (amended): a template-execution error from `Post.Generate`
during the post pass is ignored: the loop's outcome and the files it
creates are independent of which posts fail to render, and after a post
that reaches rendering (whatever the render result) the loop continues
with the remaining posts. -/
theorem C1_render_error_ignored :
    (∀ (dest : String) (entries : List PostEntry) (acc : List String),
        gpLoop dest entries acc = gpLoop dest (entries.map PostEntry.clearRenderErr) acc)
  ∧ (∀ (dest : String) (e : PostEntry) (rest : List PostEntry) (acc : List String) (p : Post),
        headIsDot e.name = false → e.statErr = false →
        NewPostFromPath e.name e.content e.modTime = .post p → e.createErr = false →
        gpLoop dest (e :: rest) acc = gpLoop dest rest (acc ++ [postDestPath dest p])) := by
  constructor
  · intro dest entries
    induction entries with
    | nil => intro acc; rfl
    | cons e rest ih =>
      intro acc
      simp only [List.map_cons, gpLoop, PostEntry.clearRenderErr]
      split
      · exact ih acc
      · split
        · rfl
        · split
          · rfl
          · rfl
          · split
            · rfl
            · exact ih _
  · intro dest e rest acc p h1 h2 h3 h4
    simp only [gpLoop, h1, h2, h3, h4]
    simp

/-- Witness for C1 (amended): a concrete post entry whose render fails
still hands the loop on to the remaining entries with its file recorded. -/
theorem C1_witness :
    headIsDot "a.md" = false
  ∧ NewPostFromPath "a.md" [] ⟨2023, 7⟩ =
      .post { content := [], pubdate := ⟨2023, 7⟩, destFileName := "a.html", format := .MARKDOWN }
  ∧ gpLoop "_site" [⟨"a.md", [], ⟨2023, 7⟩, false, false, true⟩] [] =
      gpLoop "_site" []
        ([] ++ [postDestPath "_site"
          { content := [], pubdate := ⟨2023, 7⟩, destFileName := "a.html", format := .MARKDOWN }]) :=
  ⟨by decide, by decide,
   C1_render_error_ignored.2 "_site" ⟨"a.md", [], ⟨2023, 7⟩, false, false, true⟩ [] [] _
     (by decide) (by decide) (by decide) (by decide)⟩

/-! ## Claim C2 -/

/-- Counterexample to claim C2 as stated: in a source tree with two
files that both fail to copy, only the first is ever attempted — the walk
closure returns the error, which makes `filepath.Walk` stop entirely
instead of continuing with the remaining scheduled entries — though the
aggregate error is still reported. -/
theorem C2_counterexample :
    (copyTree (.dir "src" 493 false
      [.file "a" 420 [1] true, .file "b" 420 [2] true])).1.attempts = [["a"]]
  ∧ (copyTree (.dir "src" 493 false
      [.file "a" 420 [1] true, .file "b" 420 [2] true])).2 = true := by
  constructor <;> decide

/-- Claim C2 (amended): a failing entry is recorded by clearing the `ok`
flag, but it stops the walk at that entry (no later entries are
attempted); `copyTree` returns its single aggregate error exactly when
the walk ended in a failure. -/
theorem C2_copy_error_reporting :
    (∀ t : Entry, (copyTree t).2 = true ↔ (walkEntry initCState [] t).2 = FNRet.fail)
  ∧ (∀ (st : CState) (segs : List String) (e : Entry) (rest : List Entry),
      (walkEntry st (segs ++ [e.name]) e).2 = FNRet.fail →
      walkList st segs (e :: rest) = walkEntry st (segs ++ [e.name]) e) := by
  constructor
  · intro t
    have h := walkEntry_okFlag initCState [] t
    unfold copyTree
    constructor
    · intro h2
      by_contra hne
      have h3 := h.2 hne
      simp only [] at h2
      rw [Bool.not_eq_true', h3] at h2
      simp [initCState] at h2
    · intro hf
      simp [h.1 hf]
  · intro st segs e rest hfail
    rcases hw : walkEntry st (segs ++ [e.name]) e with ⟨st1, r⟩
    rw [hw] at hfail
    simp only at hfail
    subst hfail
    simp only [walkList, hw]

/-- Witness for C2 (amended): the failing first file ends the walk of its
sibling list immediately. -/
theorem C2_witness :
    walkList initCState [] [Entry.file "a" 420 [1] true, Entry.file "b" 420 [2] true]
      = walkEntry initCState ([] ++ [(Entry.file "a" 420 [1] true).name])
          (Entry.file "a" 420 [1] true) :=
  C2_copy_error_reporting.2 initCState [] (Entry.file "a" 420 [1] true)
    [Entry.file "b" 420 [2] true] (by decide)

/-! ## Claim C3 -/

/-- Claim C3: extension-to-format resolution maps `txt` and `md` to
`MARKDOWN` and `html` to `HTML`; every other extension string (the
comparison being exact string equality, hence case-sensitive with no
normalization) resolves to nothing, and post discovery on a name with
such an extension fails with the `unknown format` error naming that
extension. -/
theorem C3_format_resolution :
    formats "txt" = some Format.MARKDOWN
  ∧ formats "md" = some Format.MARKDOWN
  ∧ formats "html" = some Format.HTML
  ∧ (∀ ext : String, ext ≠ "txt" → ext ≠ "md" → ext ≠ "html" → formats ext = none)
  ∧ (∀ (base ext : String) (c : List Nat) (t : GoDate), '.' ∉ ext.toList →
      formats ext = none →
      NewPostFromPath (base ++ "." ++ ext) c t = .err ("unknown format " ++ ext)) := by
  refine ⟨rfl, rfl, rfl, ?_, ?_⟩
  · intro ext h1 h2 h3
    simp [formats, h1, h2, h3]
  · exact newPost_unknown_ext

/-- Witness for C3 at concrete inputs: resolution is case-sensitive
(`"TXT"` resolves to nothing) and `posts/note.xyz` fails with
`unknown format xyz`. -/
theorem C3_witness :
    formats "TXT" = none
  ∧ NewPostFromPath ("note" ++ "." ++ "xyz") [] ⟨2023, 7⟩ =
      .err ("unknown format " ++ "xyz") :=
  ⟨C3_format_resolution.2.2.2.1 "TXT" (by decide) (by decide) (by decide),
   C3_format_resolution.2.2.2.2 "note" "xyz" [] ⟨2023, 7⟩ (by decide) (by decide)⟩

/-! ## Claim C4 -/

/-- Claim C4: every destination entry created by the tree-copy pass has a
source-relative path with no hidden (dot-prefixed) segment and with no
`posts` or `templates` segment above its base name — i.e. nothing is
created inside a `posts` or `templates` directory, at any nesting depth. -/
theorem C4_no_hidden_or_reserved (t : Entry) :
    ∀ x ∈ (copyTree t).1.created,
      (∀ s ∈ x.rel, charsHeadDot s.toList = false) ∧
      (∀ s ∈ x.rel.dropLast, s ≠ "posts" ∧ s ≠ "templates") := by
  intro x hx
  have hx' : x ∈ (walkEntry initCState [] t).1.created := hx
  rcases walkEntry_created initCState [] t (by intro s hs; cases hs) (Or.inl rfl) x hx' with h | h
  · cases h
  · exact h

/-- Witness for C4: a copied top-level file, with the theorem's
guarantees instantiated on it. -/
theorem C4_witness :
    (⟨["a.txt"], false, 420, [1]⟩ : DestEntry) ∈
      (copyTree (.dir "src" 493 false [.file "a.txt" 420 [1] false])).1.created
  ∧ ((∀ s ∈ (⟨["a.txt"], false, 420, [1]⟩ : DestEntry).rel, charsHeadDot s.toList = false) ∧
     (∀ s ∈ (⟨["a.txt"], false, 420, [1]⟩ : DestEntry).rel.dropLast,
        s ≠ "posts" ∧ s ≠ "templates")) :=
  ⟨by decide,
   C4_no_hidden_or_reserved (.dir "src" 493 false [.file "a.txt" 420 [1] false])
     ⟨["a.txt"], false, 420, [1]⟩ (by decide)⟩

/-! ## Claim C5 -/

/-- Counterexample to claim C5 as stated: for a post whose `pubdate` has
year 999 (a value `time.Time.Year()` can produce for a file's
modification time), `dateParts` renders the year as the three-character
string `"999"`, not a 4-digit string — the source formats the year with
`"%d"`, which does no padding. -/
theorem C5_counterexample :
    (Post.dateParts { content := [], pubdate := ⟨999, 7⟩,
                      destFileName := "a.html", format := .HTML }).1 = "999"
  ∧ (Post.dateParts { content := [], pubdate := ⟨999, 7⟩,
                      destFileName := "a.html", format := .HTML }).1.length ≠ 4 := by
  constructor <;> decide

/-- Claim C5 (amended): the destination output path is
`dest/<year>/<month>/<destFileName>` where the month component is the
2-digit zero-padded rendering of `pubdate`'s month and the year component
is the unpadded decimal rendering of `pubdate`'s year — a 4-digit string
exactly when the year lies between 1000 and 9999; both components are
derived purely from `pubdate`. -/
theorem C5_dest_path_shape (dest : String) (p : Post)
    (hm1 : 1 ≤ p.pubdate.month) (hm2 : p.pubdate.month ≤ 12) :
    postDestPath dest p =
      dest ++ "/" ++ sprintfNat p.pubdate.year ++ "/" ++
        sprintf02d p.pubdate.month ++ "/" ++ p.destFileName
  ∧ (p.dateParts.2).length = 2
  ∧ ((p.dateParts.1).length = 4 ↔ 1000 ≤ p.pubdate.year ∧ p.pubdate.year ≤ 9999) :=
  ⟨rfl, sprintf02d_length_two _ hm1 hm2, sprintfNat_length_four_iff _⟩

/-- Witness for C5 (amended) at a concrete post dated 2023-07. -/
theorem C5_witness :
    postDestPath "_site" { content := [], pubdate := ⟨2023, 7⟩,
                           destFileName := "hello.html", format := .MARKDOWN } =
      "_site" ++ "/" ++ sprintfNat 2023 ++ "/" ++ sprintf02d 7 ++ "/" ++ "hello.html"
  ∧ (sprintf02d 7).length = 2
  ∧ ((sprintfNat 2023).length = 4 ↔ 1000 ≤ 2023 ∧ 2023 ≤ 9999) :=
  C5_dest_path_shape "_site"
    { content := [], pubdate := ⟨2023, 7⟩, destFileName := "hello.html", format := .MARKDOWN }
    (by decide) (by decide)

/-! ## Claim C6 -/

/-- Claim C6: for a source name of the shape `base ++ "." ++ ext` — the
decomposition of any name containing a `'.'` at its last dot, so `ext`
has no further `'.'` — the discovered post's `destFileName` is
`base ++ ".html"`: only the final extension segment is replaced. -/
theorem C6_destFileName (base ext : String) (c : List Nat) (t : GoDate) (p : Post)
    (hdot : '.' ∉ ext.toList)
    (hp : NewPostFromPath (base ++ "." ++ ext) c t = .post p) :
    p.destFileName = base ++ ".html" :=
  newPost_destFileName base ext c t p hdot hp

/-- Witness for C6: `foo.bar.md` yields `foo.bar.html`. -/
theorem C6_witness :
    '.' ∉ "md".toList
  ∧ NewPostFromPath ("foo.bar" ++ "." ++ "md") [] ⟨2023, 7⟩ =
      .post { content := [], pubdate := ⟨2023, 7⟩,
              destFileName := "foo.bar.html", format := .MARKDOWN }
  ∧ ({ content := [], pubdate := ⟨2023, 7⟩,
       destFileName := "foo.bar.html", format := .MARKDOWN } : Post).destFileName =
      "foo.bar" ++ ".html" :=
  ⟨by decide, by decide,
   C6_destFileName "foo.bar" "md" [] ⟨2023, 7⟩ _ (by decide) (by decide)⟩

/-! ## Claim C7 -/

/-- Counterexample to claim C7 as stated: when `source/posts` exists but
is a regular file (so it "does not exist as a directory"), the `exists`
check passes — it only tests `os.Stat` — and generation fails later with
the `ioutil.ReadDir` error, which is not the missing-directory error. -/
theorem C7_counterexample :
    SiteGenerate "_site" (.dir "src" 493 false [])
      { postsStat := some false, tmplStat := some true, tmplParseOk := true,
        readDirErr := false, entries := [] }
    = (.errRet readDirMsg, [])
  ∧ readDirMsg ≠ missingDirMsg := by
  constructor <;> decide

/-- Claim C7 (amended): whenever `source/posts` or `source/templates` is
absent (fails to stat), `Site.Generate` — its copy phase having
succeeded — returns the missing-directory error with no post processed. -/
theorem C7_missing_dir_error (dest : String) (t : Entry) (env : GPEnv)
    (hcopy : (copyTree t).2 = false)
    (hmiss : env.postsStat = none ∨ env.tmplStat = none) :
    SiteGenerate dest t env = (.errRet missingDirMsg, []) := by
  unfold SiteGenerate generatePosts
  rw [hcopy]
  rcases hmiss with h | h <;> simp [h, existsB]

/-- Witness for C7 (amended): a source tree with no `posts` directory. -/
theorem C7_witness :
    SiteGenerate "_site" (.dir "src" 493 false [.file "index.html" 420 [1] false])
      { postsStat := none, tmplStat := some true, tmplParseOk := true,
        readDirErr := false, entries := [] }
    = (.errRet missingDirMsg, []) :=
  C7_missing_dir_error "_site" (.dir "src" 493 false [.file "index.html" 420 [1] false])
    { postsStat := none, tmplStat := some true, tmplParseOk := true,
      readDirErr := false, entries := [] }
    (by decide) (Or.inl rfl)

/-! ## Claim C8 -/

/-- Counterexample to claim C8 as stated: a malformed
`templates/default.html` makes `template.Must` panic inside
`generatePosts` — the failure is a panic, not a template-parse error
value returned to `Generate`'s caller (no post is processed, though). -/
theorem C8_counterexample :
    SiteGenerate "_site" (.dir "src" 493 false [])
      { postsStat := some true, tmplStat := some true, tmplParseOk := false,
        readDirErr := false,
        entries := [⟨"a.md", [], ⟨2023, 7⟩, false, false, false⟩] }
    = (.panicked, []) := by decide

/-- Claim C8 (amended): when the template file fails to parse,
`Site.Generate` — its copy phase having succeeded and both directories
existing — panics (via `template.Must`) before any post is processed;
no error value is returned to the caller. -/
theorem C8_template_parse_panics (dest : String) (t : Entry) (env : GPEnv)
    (hcopy : (copyTree t).2 = false)
    (hp : existsB env.postsStat = true) (ht : existsB env.tmplStat = true)
    (hparse : env.tmplParseOk = false) :
    SiteGenerate dest t env = (.panicked, []) := by
  unfold SiteGenerate generatePosts
  rw [hcopy]
  simp [hp, ht, hparse]

/-- Witness for C8 (amended) at a concrete environment. -/
theorem C8_witness :
    SiteGenerate "_site" (.dir "src" 493 false [])
      { postsStat := some true, tmplStat := some true, tmplParseOk := false,
        readDirErr := false, entries := [] }
    = (.panicked, []) :=
  C8_template_parse_panics "_site" (.dir "src" 493 false [])
    { postsStat := some true, tmplStat := some true, tmplParseOk := false,
      readDirErr := false, entries := [] }
    (by decide) rfl rfl rfl

/-! ## Claim C9 -/

/-- Claim C9: for every byte sequence `x` (and any behaviour `md` of the
external markdown converter), `Convert` at the `HTML` variant returns `x`
unchanged. -/
theorem C9_html_convert_identity (md : List Nat → List Nat) (x : List Nat) :
    Format.Convert md Format.HTML x = x := rfl

/-! ## Claim C10 -/

/-- Claim C10: `NewPostFromPath` panics (out-of-range slice index on
`fi.Name()[:idx]` with `idx = -1` from `strings.LastIndex`) exactly when
the base name contains no `'.'`; when a `'.'` is present the slicing is
in bounds and the function returns a post or an error, never the panic. -/
theorem C10_dotless_name_panics (name : String) (c : List Nat) (t : GoDate) :
    NewPostFromPath name c t = .panicked ↔ '.' ∉ name.toList := by
  unfold NewPostFromPath
  cases h : lastDotAux name.toList with
  | none =>
    simp only [true_iff]
    exact (lastDotAux_eq_none_iff _).mp h
  | some i =>
    have hmem : '.' ∈ name.toList := by
      by_contra hn
      rw [(lastDotAux_eq_none_iff _).mpr hn] at h
      cases h
    cases hf : formats ((name.toList.drop (i + 1)).asString) <;>
      simp only [String.toList] at hf hmem <;> simp [hf, hmem]

end Gossip
